import Mathlib

/-
Verification of the fpgad daemon core (canonical/fpgad) against its
natural-language specification.

The development shallowly embeds the relevant parts of the Rust daemon:

* `daemon/src/error.rs` - the `FpgadError` enum, its `Display` messages and
  the boundary conversion `impl From<FpgadError> for fdo::Error`;
* `daemon/src/comm/dbus.rs` - `extract_path_and_filename` and
  `make_firmware_pair` (firmware path resolution);
* `daemon/src/platforms/platform.rs` - `match_platform_string`,
  `read_compatible_string` and `discover_platform` (the platform registry);
* `daemon/src/platforms/universal_components/universal_fpga.rs` - `state`,
  `assert_state`, `flags`, `set_flags`, `load_firmware` (device lifecycle);
* `daemon/src/platforms/universal_components/universal_overlay_handler.rs` -
  `apply_overlay` and `status` (overlay lifecycle);
* `daemon/src/platforms/universal.rs` - the `OnceLock` caching of the
  per-platform `UniversalFPGA` / `UniversalOverlayHandler` objects;
* `daemon/src/comm/dbus/control_interface.rs` - the write-coordination lock
  guarding the sequence (write firmware search path register; load), modelled
  as a two-task transition system.

Filesystem reads and writes are modelled by explicit environment records
(node contents and write outcomes), machine integers by `Nat` with explicit
bounds, Rust `Path` values by a record of an absoluteness flag plus the list
of normal components, and Rust strings by Lean strings (`List Char` where
character-level reasoning is needed).
-/

namespace Fpgad

/-! ## String utilities shared by the embedding -/

/-- Rust `{:?}` (Debug) formatting of a path or string: the value surrounded
by double quotes.  (Escaping inside the value is not modelled; the paths and
handles in all claims contain no characters that Debug would escape.) -/
def debugQuote (s : String) : String := "\"" ++ s ++ "\""

/-- Rust `str::trim_end_matches(c)`: remove every trailing occurrence of the
character `c`. -/
def trimEndMatchesChar (c : Char) (s : String) : String :=
  String.mk ((s.data.reverse.dropWhile (fun a => a = c)).reverse)

/-- Helper: gluing a split-off string head back on (associativity of string
append, specialised for exhibiting literal message prefixes). -/
theorem string_append_assoc (a b c : String) : a ++ b ++ c = a ++ (b ++ c) :=
  String.append_assoc a b c

/-! ## Error taxonomy (`daemon/src/error.rs`)

`FpgadError` is the daemon's tagged error enumeration.  The `std::io::Error`
payloads of the IO variants and the softener error payload are modelled as
their display strings; `PathBuf` payloads as path strings. -/

inductive FpgadError where
  | Flag (msg : String)
  | OverlayStatus (msg : String)
  | FPGAState (msg : String)
  | Argument (msg : String)
  | IORead (file : String) (e : String)
  | IOWrite (file : String) (e : String)
  | IOCreate (file : String) (e : String)
  | IODelete (file : String) (e : String)
  | IOReadDir (dir : String) (e : String)
  | Softener (msg : String)
  | Internal (msg : String)
deriving DecidableEq, Repr

/-- The `Display` rendering of each variant, from the `#[error(...)]`
attributes on `FpgadError` (`thiserror`).  `{file:?}` renders Debug-quoted. -/
def FpgadError.message : FpgadError → String
  | .Flag s => "FpgadError::Flag: Failed to read flags: " ++ s
  | .OverlayStatus s => "FpgadError::OverlayStatus: Overlay was not applied: " ++ s
  | .FPGAState s => "FpgadError::FPGAState: FPGA state is not as expected: " ++ s
  | .Argument s => "FpgadError::Argument: " ++ s
  | .IORead f e =>
      "FpgadError::IORead: An IO error occurred when reading from " ++ debugQuote f ++ ": " ++ e
  | .IOWrite f e =>
      "FpgadError::IOWrite: An IO error occurred when writing to " ++ debugQuote f ++ ": " ++ e
  | .IOCreate f e =>
      "FpgadError::IOCreate: An IO error occurred when creating " ++ debugQuote f ++ ": " ++ e
  | .IODelete f e =>
      "FpgadError::IODelete: An IO error occurred when deleting " ++ debugQuote f ++ ": " ++ e
  | .IOReadDir d e =>
      "FpgadError::IOReadDir: An IO error occurred when reading directory " ++ debugQuote d ++ ": " ++ e
  | .Softener s => "FpgadError::Softener: An error occurred using softener: " ++ s
  | .Internal s => "FpgadError::Internal: An Internal error occurred: " ++ s

/-- The variant name of an error value, as it appears in the message tag. -/
def FpgadError.variantName : FpgadError → String
  | .Flag _ => "Flag"
  | .OverlayStatus _ => "OverlayStatus"
  | .FPGAState _ => "FPGAState"
  | .Argument _ => "Argument"
  | .IORead _ _ => "IORead"
  | .IOWrite _ _ => "IOWrite"
  | .IOCreate _ _ => "IOCreate"
  | .IODelete _ _ => "IODelete"
  | .IOReadDir _ _ => "IOReadDir"
  | .Softener _ => "Softener"
  | .Internal _ => "Internal"

/-- The DBus boundary error type (`zbus::fdo::Error`), restricted to the three
constructors the conversion produces. -/
inductive FdoError where
  | InvalidArgs (msg : String)
  | IOError (msg : String)
  | Failed (msg : String)
deriving DecidableEq, Repr

/-- The boundary error code of an `FdoError`, forgetting the message. -/
inductive FdoCode where
  | invalidArgs
  | ioError
  | failed
deriving DecidableEq, Repr

def FdoError.code : FdoError → FdoCode
  | .InvalidArgs _ => .invalidArgs
  | .IOError _ => .ioError
  | .Failed _ => .failed

def FdoError.message : FdoError → String
  | .InvalidArgs m => m
  | .IOError m => m
  | .Failed m => m

/-- The boundary conversion, from `impl From<FpgadError> for fdo::Error` in
`daemon/src/error.rs` (the logging side effect is not modelled). -/
def fdoErrorFrom (err : FpgadError) : FdoError :=
  match err with
  | .Argument _ => .InvalidArgs err.message
  | .IORead _ _ => .IOError err.message
  | .IOWrite _ _ => .IOError err.message
  | .IOCreate _ _ => .IOError err.message
  | .IODelete _ _ => .IOError err.message
  | .IOReadDir _ _ => .IOError err.message
  | _ => .Failed err.message

/-- The boundary code each variant should map to, written from the spec's
words: Argument to invalid-arguments; IORead, IOWrite, IOCreate, IODelete and
IOReadDir (spec: IOReadDirectory) to io-error; every other variant to
generic-failure. -/
def specBoundaryCode : FpgadError → FdoCode
  | .Argument _ => .invalidArgs
  | .IORead _ _ => .ioError
  | .IOWrite _ _ => .ioError
  | .IOCreate _ _ => .ioError
  | .IODelete _ _ => .ioError
  | .IOReadDir _ _ => .ioError
  | _ => .failed

/-- C9: the boundary conversion maps Argument to the invalid-arguments code,
each IO variant to the io-error code and every other variant to the
generic-failure code, and every converted error's message begins with its
variant-name tag "FpgadError::(variant):". -/
theorem fdoErrorFrom_code_and_message_tag (e : FpgadError) :
    (fdoErrorFrom e).code = specBoundaryCode e ∧
    ∃ rest, (fdoErrorFrom e).message = "FpgadError::" ++ e.variantName ++ ":" ++ rest := by
  cases e <;>
    refine ⟨rfl, ?_⟩ <;>
    simp only [fdoErrorFrom, FdoError.message, FpgadError.message, FpgadError.variantName,
      debugQuote]
  case Flag s => exact ⟨" Failed to read flags: " ++ s, by rw [← string_append_assoc]; rfl⟩
  case OverlayStatus s =>
    exact ⟨" Overlay was not applied: " ++ s, by rw [← string_append_assoc]; rfl⟩
  case FPGAState s =>
    exact ⟨" FPGA state is not as expected: " ++ s, by rw [← string_append_assoc]; rfl⟩
  case Argument s => exact ⟨" " ++ s, by rw [← string_append_assoc]; rfl⟩
  case IORead f e =>
    exact ⟨" An IO error occurred when reading from " ++ ("\"" ++ f ++ "\"" ++ (": " ++ e)), by
      rw [string_append_assoc, string_append_assoc, string_append_assoc,
        ← string_append_assoc]; rfl⟩
  case IOWrite f e =>
    exact ⟨" An IO error occurred when writing to " ++ ("\"" ++ f ++ "\"" ++ (": " ++ e)), by
      rw [string_append_assoc, string_append_assoc, string_append_assoc,
        ← string_append_assoc]; rfl⟩
  case IOCreate f e =>
    exact ⟨" An IO error occurred when creating " ++ ("\"" ++ f ++ "\"" ++ (": " ++ e)), by
      rw [string_append_assoc, string_append_assoc, string_append_assoc,
        ← string_append_assoc]; rfl⟩
  case IODelete f e =>
    exact ⟨" An IO error occurred when deleting " ++ ("\"" ++ f ++ "\"" ++ (": " ++ e)), by
      rw [string_append_assoc, string_append_assoc, string_append_assoc,
        ← string_append_assoc]; rfl⟩
  case IOReadDir d e =>
    exact ⟨" An IO error occurred when reading directory " ++ ("\"" ++ d ++ "\"" ++ (": " ++ e)),
      by
      rw [string_append_assoc, string_append_assoc, string_append_assoc,
        ← string_append_assoc]; rfl⟩
  case Softener s =>
    exact ⟨" An error occurred using softener: " ++ s, by rw [← string_append_assoc]; rfl⟩
  case Internal s =>
    exact ⟨" An Internal error occurred: " ++ s, by rw [← string_append_assoc]; rfl⟩

/-! ## Firmware path resolution (`daemon/src/comm/dbus.rs`)

Rust `Path` values are modelled as an absoluteness flag plus the list of
normal components (each component a non-empty name; `.` and `..` components
do not occur in the firmware paths the daemon handles).  On this fragment
`Path::file_name` is the last component, `Path::parent` drops it, and
`Path::strip_prefix` succeeds exactly when the prefix components lead the
source components. -/

structure RPath where
  absolute : Bool
  comps : List String
deriving DecidableEq, Repr

/-- Rust `path.as_os_str().is_empty()`: only the empty relative path renders
as the empty string. -/
def RPath.isEmptyOsStr (p : RPath) : Bool := !p.absolute && p.comps.isEmpty

/-- Rust `Path::file_name` (on paths without trailing `..`/`.` components):
the last component, if any. -/
def RPath.fileName (p : RPath) : Option String := p.comps.getLast?

/-- Rust `Path::parent`: drop the last component; `None` for a root or empty
path. -/
def RPath.parent (p : RPath) : Option RPath :=
  match p.comps with
  | [] => none
  | _ => some ⟨p.absolute, p.comps.dropLast⟩

/-- Rust `PathBuf::join` with the convention that joining an absolute path
replaces the receiver. -/
def RPath.join (p q : RPath) : RPath :=
  if q.absolute then q else ⟨p.absolute, p.comps ++ q.comps⟩

/-- Rendering of a path for error messages (Rust Display of `Path`). -/
def RPath.render (p : RPath) : String :=
  (if p.absolute then "/" else "") ++ String.intercalate "/" p.comps

/-- Rust `Path::strip_prefix` for a non-empty prefix path: succeeds exactly
when the prefix components lead the source components (with matching
absoluteness), returning the relative remainder.  Because the result is
always relative here, the `skip_while(RootDir)` cleanup that
`make_firmware_pair` applies to it is the identity and is folded in. -/
def rustStripPre (sourceP pre : RPath) : Option RPath :=
  if sourceP.absolute = pre.absolute ∧ pre.comps.isPrefixOf sourceP.comps then
    some ⟨false, sourceP.comps.drop pre.comps.length⟩
  else none

/-- From `extract_path_and_filename` in `daemon/src/comm/dbus.rs`: split a
path into parent directory and file name. -/
def extract_path_and_filename (p : RPath) : Except FpgadError (RPath × RPath) :=
  match p.fileName with
  | none =>
      .error (.Argument ("Provided bitstream path " ++ debugQuote p.render ++
        " is not a file or a valid directory."))
  | some name =>
      match p.parent with
      | none =>
          .error (.Argument ("Provided bitstream path " ++ debugQuote p.render ++
            " is missing a parent dir."))
      | some par => .ok (par, ⟨false, [name]⟩)

/-- From `make_firmware_pair` in `daemon/src/comm/dbus.rs`: compute the
(firmware search prefix, relative suffix) pair for a bitstream source path
and an optional firmware lookup path. -/
def make_firmware_pair (sourceP fwPath : RPath) : Except FpgadError (RPath × RPath) :=
  if fwPath.isEmptyOsStr then extract_path_and_filename sourceP
  else
    match rustStripPre sourceP fwPath with
    | some suffixPath =>
        if suffixPath.comps.isEmpty then
          .error (.Argument ("The resulting filename from stripping " ++
            debugQuote fwPath.render ++ " from " ++ debugQuote sourceP.render ++
            " was empty. Cannot write empty string to fpga."))
        else .ok (fwPath, suffixPath)
    | none =>
        .error (.Argument ("Could not find " ++ debugQuote sourceP.render ++
          " inside " ++ debugQuote fwPath.render))

/-- C1: whenever `make_firmware_pair` succeeds, joining the returned relative
suffix onto the returned search prefix reconstructs the original source path,
and the suffix is never empty. -/
theorem make_firmware_pair_roundtrip (sourceP fwPath pre suf : RPath)
    (h : make_firmware_pair sourceP fwPath = .ok (pre, suf)) :
    pre.join suf = sourceP ∧ suf.comps ≠ [] := by
  unfold make_firmware_pair at h
  by_cases hempty : fwPath.isEmptyOsStr
  · rw [if_pos hempty] at h
    unfold extract_path_and_filename at h
    rcases hlast : sourceP.fileName with _ | name
    · rw [hlast] at h; exact absurd h (by simp)
    · rw [hlast] at h
      have hcomps : sourceP.comps ≠ [] := by
        intro hc
        unfold RPath.fileName at hlast
        rw [hc] at hlast
        simp at hlast
      rcases hpar : sourceP.parent with _ | par
      · rw [hpar] at h; exact absurd h (by simp)
      · rw [hpar] at h
        simp only [Except.ok.injEq, Prod.mk.injEq] at h
        obtain ⟨hpre, hsuf⟩ := h
        unfold RPath.parent at hpar
        rcases hcl : sourceP.comps with _ | ⟨a, l⟩
        · exact absurd hcl hcomps
        · rw [hcl] at hpar
          simp only [Option.some.injEq] at hpar
          subst hpre hsuf
          rw [← hpar]
          constructor
          · unfold RPath.join
            simp only [if_neg (by simp : ¬ (false : Bool) = true)]
            have hname : name = sourceP.comps.getLast hcomps := by
              unfold RPath.fileName at hlast
              rw [List.getLast?_eq_getLast sourceP.comps hcomps] at hlast
              exact (Option.some.injEq _ _ ▸ hlast).symm
            rw [← hcl, hname, List.dropLast_append_getLast hcomps]
          · simp
  · rw [if_neg hempty] at h
    rcases hstrip : rustStripPre sourceP fwPath with _ | suffixPath
    · simp only [hstrip] at h
      exact absurd h (by simp)
    · simp only [hstrip] at h
      by_cases hse : suffixPath.comps.isEmpty
      · rw [if_pos hse] at h; exact absurd h (by simp)
      · rw [if_neg hse] at h
        simp only [Except.ok.injEq, Prod.mk.injEq] at h
        obtain ⟨hpre, hsuf⟩ := h
        subst hpre
        subst hsuf
        unfold rustStripPre at hstrip
        by_cases hc : sourceP.absolute = fwPath.absolute ∧ fwPath.comps.isPrefixOf sourceP.comps
        · rw [if_pos hc] at hstrip
          simp only [Option.some.injEq] at hstrip
          obtain ⟨habs, hpfx⟩ := hc
          constructor
          · rw [← hstrip]
            unfold RPath.join
            simp only [if_neg (by simp : ¬ (false : Bool) = true)]
            obtain ⟨t, ht⟩ := List.isPrefixOf_iff_prefix.mp hpfx
            have hdrop : sourceP.comps.drop fwPath.comps.length = t := by
              rw [← ht, List.drop_left]
            rw [hdrop, ht, ← habs]
          · intro hnil
            rw [hnil] at hse
            simp at hse
        · rw [if_neg hc] at hstrip; exact absurd hstrip (by simp)

/-- Witness for C1 at the spec's own example: resolving
`/lib/firmware/a/b.bin` against the override `/lib/firmware`. -/
theorem make_firmware_pair_roundtrip_witness :
    make_firmware_pair ⟨true, ["lib", "firmware", "a", "b.bin"]⟩ ⟨true, ["lib", "firmware"]⟩ =
      .ok (⟨true, ["lib", "firmware"]⟩, ⟨false, ["a", "b.bin"]⟩) ∧
    (RPath.join ⟨true, ["lib", "firmware"]⟩ ⟨false, ["a", "b.bin"]⟩ =
        ⟨true, ["lib", "firmware", "a", "b.bin"]⟩ ∧
      (⟨false, ["a", "b.bin"]⟩ : RPath).comps ≠ []) :=
  ⟨by rfl,
    make_firmware_pair_roundtrip ⟨true, ["lib", "firmware", "a", "b.bin"]⟩
      ⟨true, ["lib", "firmware"]⟩ _ _ (by rfl)⟩

/-! ## Platform registry (`daemon/src/platforms/platform.rs`)

The registry maps compatibility strings to platform constructors.  It is
modelled as an association list in iteration order, with the constructed
platform values drawn from an arbitrary type `P`. -/

/-- Splitting a character list at every occurrence of a separator character,
keeping empty pieces; `acc` holds the current piece reversed. -/
def splitCharsAux (sep : Char) : List Char → List Char → List (List Char)
  | [], acc => [acc.reverse]
  | c :: rest, acc =>
      if c = sep then acc.reverse :: splitCharsAux sep rest []
      else splitCharsAux sep rest (c :: acc)

/-- Rust `str::split(',')`: comma-separated tokens, keeping empty tokens
(so the empty string yields one empty token). -/
def splitTokens (s : String) : List String :=
  (splitCharsAux ',' s.data []).map String.mk

/-- The match test of `match_platform_string`: every token of the query
string occurs among the tokens of the registered compatibility string
(`platform_string.split(',').all(|x| compat_set.contains(x))`). -/
def compatMatches (query compat : String) : Bool :=
  (splitTokens query).all (fun t => (splitTokens compat).contains t)

/-- The error message `match_platform_string` produces on failure. -/
def noMatchMsg (platform_string : String) : String :=
  "FPGAd could not match " ++ platform_string ++ " to a known platform."

/-- From `match_platform_string` in `daemon/src/platforms/platform.rs`:
return the platform constructed by the first registered entry whose token
set contains every query token, or an Argument error naming the query. -/
def match_platform_string {P : Type} (registry : List (String × P))
    (platform_string : String) : Except FpgadError P :=
  match registry.find? (fun entry => compatMatches platform_string entry.1) with
  | some entry => .ok entry.2
  | none => .error (.Argument (noMatchMsg platform_string))

/-- C2: a query whose token set is contained in some registered signature's
token set resolves to the first such registered platform; a query containing
a token absent from every registered signature fails with an Argument error
naming the unresolved signature. -/
theorem match_platform_string_resolution {P : Type} (registry : List (String × P))
    (q : String) :
    ((∃ entry ∈ registry, compatMatches q entry.1 = true) →
      ∃ entry, registry.find? (fun entry => compatMatches q entry.1) = some entry ∧
        compatMatches q entry.1 = true ∧
        match_platform_string registry q = .ok entry.2) ∧
    ((∃ t ∈ splitTokens q, ∀ entry ∈ registry, ¬ t ∈ splitTokens entry.1) →
      match_platform_string registry q = .error (.Argument (noMatchMsg q))) := by
  constructor
  · intro ⟨entry, hmem, hmatch⟩
    rcases hfind : registry.find? (fun entry => compatMatches q entry.1) with _ | found
    · rw [List.find?_eq_none] at hfind
      exact absurd hmatch (by simpa using hfind entry hmem)
    · refine ⟨found, hfind, ?_, ?_⟩
      · have hp := List.find?_some hfind
        simpa using hp
      · unfold match_platform_string
        rw [hfind]
  · intro ⟨t, htq, habsent⟩
    unfold match_platform_string
    rcases hfind : registry.find? (fun entry => compatMatches q entry.1) with _ | found
    · rw [hfind]
    · exfalso
      have hmem := List.mem_of_find?_eq_some hfind
      have hp := List.find?_some hfind
      have hmatch : compatMatches q found.1 = true := by simpa using hp
      unfold compatMatches at hmatch
      rw [List.all_eq_true] at hmatch
      have hcont := hmatch t htq
      exact habsent found hmem (by simpa using hcont)

/-- Witness for C2 at the spec's own example: with signature
`xlnx,versal-fpga,zynqmp-pcap-fpga` registered, resolving `xlnx` succeeds
with that platform, and resolving `xlnx,unknown-token` fails with an
Argument error naming the query. -/
theorem match_platform_string_resolution_witness :
    ((∃ entry ∈ [("xlnx,versal-fpga,zynqmp-pcap-fpga", (0 : Nat))],
        compatMatches "xlnx" entry.1 = true) ∧
      (∃ entry, [("xlnx,versal-fpga,zynqmp-pcap-fpga", (0 : Nat))].find?
            (fun entry => compatMatches "xlnx" entry.1) = some entry ∧
        compatMatches "xlnx" entry.1 = true ∧
        match_platform_string [("xlnx,versal-fpga,zynqmp-pcap-fpga", (0 : Nat))] "xlnx" =
          .ok entry.2)) ∧
    ((∃ t ∈ splitTokens "xlnx,unknown-token",
        ∀ entry ∈ [("xlnx,versal-fpga,zynqmp-pcap-fpga", (0 : Nat))],
          ¬ t ∈ splitTokens entry.1) ∧
      match_platform_string [("xlnx,versal-fpga,zynqmp-pcap-fpga", (0 : Nat))]
          "xlnx,unknown-token" =
        .error (.Argument (noMatchMsg "xlnx,unknown-token"))) :=
  ⟨⟨by decide,
      (match_platform_string_resolution
        [("xlnx,versal-fpga,zynqmp-pcap-fpga", (0 : Nat))] "xlnx").1 (by decide)⟩,
    ⟨by decide,
      (match_platform_string_resolution
        [("xlnx,versal-fpga,zynqmp-pcap-fpga", (0 : Nat))] "xlnx,unknown-token").2 (by decide)⟩⟩

/-! ## Platform discovery for a device (`daemon/src/platforms/platform.rs`)

`read_compatible_string` reads the device's `of_node/compatible` sysfs node;
the outcome of that filesystem read is passed in as `raw`.
`discover_platform` then resolves the signature, falling back to the
Universal platform when the signature does not match. -/

/-- The Argument message `read_compatible_string` wraps a failed sysfs read
in (`"Failed to read platform from {device_handle:?}: {e}"`). -/
def readCompatFailMsg (handle : String) (e : FpgadError) : String :=
  "Failed to read platform from " ++ debugQuote handle ++ ": " ++ e.message

/-- From `read_compatible_string`: on a successful read, trailing null
terminators are trimmed; a failed read becomes an Argument error. -/
def read_compatible_string (handle : String) (raw : Except FpgadError String) :
    Except FpgadError String :=
  match raw with
  | .error e => .error (.Argument (readCompatFailMsg handle e))
  | .ok s => .ok (trimEndMatchesChar (Char.ofNat 0) s)

/-- From `discover_platform`: read the compatibility string (propagating its
error with `?`), then resolve it, defaulting to the Universal platform via
`unwrap_or` when resolution fails. -/
def discover_platform {P : Type} (registry : List (String × P)) (universal : P)
    (handle : String) (raw : Except FpgadError String) : Except FpgadError P :=
  match read_compatible_string handle raw with
  | .error e => .error e
  | .ok compat =>
      .ok (match match_platform_string registry compat with
        | .ok p => p
        | .error _ => universal)

/-- C6 counterexample: when the signature node is unreadable,
`discover_platform` returns a hard Argument error instead of falling back to
the Universal platform, refuting the claim that it never returns a hard
error at this step. -/
theorem discover_platform_unreadable_counterexample :
    discover_platform [("universal", (7 : Nat))] 7 "fpga0"
      (.error (.IORead "/sys/class/fpga_manager/fpga0/of_node/compatible"
        "No such file or directory (os error 2)")) =
    .error (.Argument ("Failed to read platform from \"fpga0\": FpgadError::IORead: An IO error occurred when reading from \"/sys/class/fpga_manager/fpga0/of_node/compatible\": No such file or directory (os error 2)")) := by
  rfl

/-- C6 (amended): on a readable signature node the signature is trimmed of
trailing null terminators and resolved, with resolution failure falling back
to the Universal platform, never a hard error; an unreadable signature node,
however, yields an Argument error wrapping the read failure. -/
theorem discover_platform_fallback {P : Type} (registry : List (String × P)) (universal : P)
    (handle : String) (raw : Except FpgadError String) :
    (∀ s, raw = .ok s →
      ∃ p, discover_platform registry universal handle raw = .ok p ∧
        (match_platform_string registry (trimEndMatchesChar (Char.ofNat 0) s) = .ok p ∨
          (p = universal ∧
            ∃ msg, match_platform_string registry (trimEndMatchesChar (Char.ofNat 0) s) =
              .error msg))) ∧
    (∀ e, raw = .error e →
      discover_platform registry universal handle raw =
        .error (.Argument (readCompatFailMsg handle e))) := by
  constructor
  · intro s hs
    subst hs
    unfold discover_platform read_compatible_string
    rcases hm : match_platform_string registry (trimEndMatchesChar (Char.ofNat 0) s)
      with msg | p
    · exact ⟨universal, by simp [hm], Or.inr ⟨rfl, msg, rfl⟩⟩
    · exact ⟨p, by simp [hm], Or.inl rfl⟩
  · intro e he
    subst he
    rfl

/-- Witness for C6 (amended): a readable signature `universal` followed by a
null terminator resolves (falling back or matching, never erroring), and an
unreadable signature yields the wrapped Argument error. -/
theorem discover_platform_fallback_witness :
    (∃ p, discover_platform [("universal", (7 : Nat))] 7 "fpga0" (.ok "universal\x00") =
        .ok p ∧
      (match_platform_string [("universal", (7 : Nat))]
          (trimEndMatchesChar (Char.ofNat 0) "universal\x00") = .ok p ∨
        (p = 7 ∧
          ∃ msg, match_platform_string [("universal", (7 : Nat))]
            (trimEndMatchesChar (Char.ofNat 0) "universal\x00") = .error msg))) ∧
    discover_platform [("universal", (7 : Nat))] 7 "fpga0" (.error (.Internal "boom")) =
      .error (.Argument (readCompatFailMsg "fpga0" (.Internal "boom"))) :=
  ⟨(discover_platform_fallback [("universal", (7 : Nat))] 7 "fpga0"
      (.ok "universal\x00")).1 "universal\x00" rfl,
    (discover_platform_fallback [("universal", (7 : Nat))] 7 "fpga0"
      (.error (.Internal "boom"))).2 (.Internal "boom") rfl⟩

/-! ## Device lifecycle engine
(`daemon/src/platforms/universal_components/universal_fpga.rs`)

The sysfs nodes of one FPGA device are modelled by `FpgaNodes`: the current
contents of the `flags` node (as characters), whether that node retains
values written to it (a silently-rejecting node keeps its old contents), the
outcome of reading the `state` node, and the outcome of writing the
`firmware` trigger node.  IO error payloads are strings. -/

structure FpgaNodes where
  flagsContents : List Char
  flagsRetains : Bool
  stateRaw : Except String String
  firmwareWrite : Except String Unit

def statePath (handle : String) : String :=
  "/sys/class/fpga_manager/" ++ handle ++ "/state"

def flagsPath (handle : String) : String :=
  "/sys/class/fpga_manager/" ++ handle ++ "/flags"

def firmwarePath (handle : String) : String :=
  "/sys/class/fpga_manager/" ++ handle ++ "/firmware"

/-- From `UniversalFPGA::state`: read the state node and strip trailing
newlines. -/
def fpga_state (handle : String) (dev : FpgaNodes) : Except FpgadError String :=
  match dev.stateRaw with
  | .error e => .error (.IORead (statePath handle) e)
  | .ok s => .ok (trimEndMatchesChar '\n' s)

/-- The message of the FPGAState error `assert_state` raises (the doubled
"should be" is verbatim from the source). -/
def assertStateMsg (handle st : String) : String :=
  "After loading bitstream, " ++ handle ++
    "\x27s state should be should be \x27operating\x27 but it is \x27" ++ st ++ "\x27"

/-- From `UniversalFPGA::assert_state`: require the post-load state to be
exactly `operating`. -/
def assert_state (handle : String) (dev : FpgaNodes) : Except FpgadError Unit :=
  match fpga_state handle dev with
  | .ok st =>
      if st = "operating" then .ok ()
      else .error (.FPGAState (assertStateMsg handle st))
  | .error e => .error e

/-- From `UniversalFPGA::load_firmware`: write the relative bitstream path to
the firmware trigger node (the outcome of that write is `dev.firmwareWrite`),
then assert the device state. -/
def load_firmware (handle : String) (relPath : String) (dev : FpgaNodes) :
    Except FpgadError Unit :=
  match dev.firmwareWrite with
  | .error e => .error (.IOWrite (firmwarePath handle) e)
  | .ok _ => assert_state handle dev

/-! ### Hexadecimal formatting and parsing

`set_flags` renders the flags value with Rust `format!("0x{flags:X}")`
(uppercase, no leading zeros) and `flags` parses the node contents with
`u32::from_str_radix(s, 16)` after trimming whitespace and stripping every
leading `0x`. -/

/-- Uppercase hexadecimal digit for a value below 16. -/
def hexDigitChar : Nat → Char
  | 0 => '0' | 1 => '1' | 2 => '2' | 3 => '3' | 4 => '4'
  | 5 => '5' | 6 => '6' | 7 => '7' | 8 => '8' | 9 => '9'
  | 10 => 'A' | 11 => 'B' | 12 => 'C' | 13 => 'D' | 14 => 'E'
  | _ => 'F'

/-- Uppercase hexadecimal rendering, most significant digit first.  The fuel
argument bounds the number of digits; 16 digits are ample for the 8 a `u32`
can need. -/
def toHexUpperAux : Nat → Nat → List Char
  | 0, _ => []
  | fuel + 1, n =>
      if n < 16 then [hexDigitChar n]
      else toHexUpperAux fuel (n / 16) ++ [hexDigitChar (n % 16)]

/-- Rust `format!("{:X}", n)` for `n` below `16 ^ 16`. -/
def toHexUpper (n : Nat) : List Char := toHexUpperAux 16 n

/-- Rust `char::to_digit(16)`: value of a hexadecimal digit character. -/
def hexCharVal (c : Char) : Option Nat :=
  if 48 ≤ c.toNat ∧ c.toNat ≤ 57 then some (c.toNat - 48)
  else if 97 ≤ c.toNat ∧ c.toNat ≤ 102 then some (c.toNat - 87)
  else if 65 ≤ c.toNat ∧ c.toNat ≤ 70 then some (c.toNat - 55)
  else none

/-- Accumulating base-16 digit parse; any non-digit character fails. -/
def parseHexAcc (acc : Nat) : List Char → Option Nat
  | [] => some acc
  | c :: rest =>
      match hexCharVal c with
      | some d => parseHexAcc (acc * 16 + d) rest
      | none => none

/-- The optional leading plus sign `from_str_radix` accepts. -/
def stripPlusSign : List Char → List Char
  | c :: rest => if c = '+' then rest else c :: rest
  | [] => []

/-- Rust `u32::from_str_radix(s, 16)`: an optional leading plus sign, then at
least one hexadecimal digit; values exceeding `u32::MAX` are an error. -/
def fromStrRadix16U32 (l : List Char) : Option Nat :=
  match stripPlusSign l with
  | [] => none
  | l2 =>
      match parseHexAcc 0 l2 with
      | some n => if n < 4294967296 then some n else none
      | none => none

/-- Rust `str::trim`: drop leading and trailing whitespace characters. -/
def trimChars (l : List Char) : List Char :=
  ((l.dropWhile Char.isWhitespace).reverse.dropWhile Char.isWhitespace).reverse

/-- Rust `str::trim_start_matches("0x")`: strip every leading `0x`. -/
def stripHexMarks : List Char → List Char
  | c1 :: c2 :: rest =>
      if c1 = '0' ∧ c2 = 'x' then stripHexMarks rest else c1 :: c2 :: rest
  | l => l

/-- Sanity anchor for the hexadecimal rendering: decimal 42 renders as the
undecorated uppercase digits `2A`. -/
theorem toHexUpper_value_42 : toHexUpper 42 = ['2', 'A'] := rfl

/-- From `UniversalFPGA::flags`: read the flags node, trim, strip the `0x`
decoration and parse as hexadecimal `u32`. -/
def fpga_flags (dev : FpgaNodes) : Except FpgadError Nat :=
  match fromStrRadix16U32 (stripHexMarks (trimChars dev.flagsContents)) with
  | some v => .ok v
  | none => .error (.Flag "Parsing flags failed")

/-- Writing a value to the flags node: a well-behaved node retains it, a
silently-rejecting node keeps its previous contents; the write call itself
reports success either way. -/
def writeFlagsNode (dev : FpgaNodes) (content : List Char) : FpgaNodes :=
  { dev with flagsContents := if dev.flagsRetains then content else dev.flagsContents }

def setFlagsMismatchMsg (handle : String) (v ret : Nat) : String :=
  "Setting " ++ handle ++ "\x27s flags to \x27" ++ toString v ++
    "\x27 failed. Resulting flag was \x27" ++ toString ret ++ "\x27"

def setFlagsReadbackMsg (handle : String) (v : Nat) (e : String) : String :=
  "Failed to read " ++ handle ++ "\x27s  flags after setting to \x27" ++ toString v ++
    "\x27: " ++ e

/-- From `UniversalFPGA::set_flags`: write `0x{flags:X}` to the flags node,
read the state back (the value is only logged, but a failed read
propagates), then read the flags back and fail with a Flag error unless the
read-back value equals the written one.  The returned value is the node
state after the write. -/
def set_flags (handle : String) (v : Nat) (dev : FpgaNodes) :
    Except FpgadError FpgaNodes :=
  match fpga_state handle (writeFlagsNode dev ('0' :: 'x' :: toHexUpper v)) with
  | .error e => .error e
  | .ok _ =>
      match fpga_flags (writeFlagsNode dev ('0' :: 'x' :: toHexUpper v)) with
      | .ok ret =>
          if ret = v then .ok (writeFlagsNode dev ('0' :: 'x' :: toHexUpper v))
          else .error (.Flag (setFlagsMismatchMsg handle v ret))
      | .error e => .error (.Flag (setFlagsReadbackMsg handle v e.message))

/-- C4: `load_firmware` returns Ok exactly when the trigger write succeeded
and the subsequent state read returns exactly `operating`; any other observed
state yields an FPGAState (DeviceStateVerification) error carrying the
observed state inside its message, and a failed trigger write yields an
IOWrite error. -/
theorem load_firmware_spec (handle relPath : String) (dev : FpgaNodes) :
    (load_firmware handle relPath dev = .ok () ↔
      dev.firmwareWrite = .ok () ∧ fpga_state handle dev = .ok "operating") ∧
    (∀ st, dev.firmwareWrite = .ok () → fpga_state handle dev = .ok st →
      st ≠ "operating" →
      load_firmware handle relPath dev = .error (.FPGAState (assertStateMsg handle st)) ∧
        ∃ before after, assertStateMsg handle st = before ++ st ++ after) ∧
    (∀ e, dev.firmwareWrite = .error e →
      load_firmware handle relPath dev = .error (.IOWrite (firmwarePath handle) e)) := by
  refine ⟨?_, ?_, ?_⟩
  · constructor
    · intro h
      unfold load_firmware assert_state at h
      rcases hw : dev.firmwareWrite with e | u
      · simp [hw] at h
      · simp only [hw] at h
        rcases hs : fpga_state handle dev with e | st
        · simp [hs] at h
        · simp only [hs] at h
          by_cases hop : st = "operating"
          · subst hop
            exact ⟨rfl, rfl⟩
          · rw [if_neg hop] at h
            exact absurd h (by simp)
    · intro ⟨hw, hs⟩
      unfold load_firmware assert_state
      simp [hw, hs]
  · intro st hw hs hne
    constructor
    · unfold load_firmware assert_state
      simp only [hw, hs]
      rw [if_neg hne]
    · exact ⟨"After loading bitstream, " ++ handle ++
        "\x27s state should be should be \x27operating\x27 but it is \x27", "\x27", rfl⟩
  · intro e hw
    unfold load_firmware
    simp only [hw]

/-- Witness for C4: with the trigger write succeeding but the device left in
state `unknown`, `load_firmware` fails with the FPGAState error carrying
`unknown`. -/
theorem load_firmware_spec_witness :
    ((⟨[], true, .ok "unknown", .ok ()⟩ : FpgaNodes).firmwareWrite = .ok () ∧
      fpga_state "fpga0" ⟨[], true, .ok "unknown", .ok ()⟩ = .ok "unknown" ∧
      "unknown" ≠ "operating") ∧
    (load_firmware "fpga0" "design.bit.bin" ⟨[], true, .ok "unknown", .ok ()⟩ =
        .error (.FPGAState (assertStateMsg "fpga0" "unknown")) ∧
      ∃ before after, assertStateMsg "fpga0" "unknown" = before ++ "unknown" ++ after) :=
  ⟨⟨rfl, rfl, by decide⟩,
    (load_firmware_spec "fpga0" "design.bit.bin" ⟨[], true, .ok "unknown", .ok ()⟩).2.1
      "unknown" rfl rfl (by decide)⟩

/-! ### Round trip between hexadecimal rendering and parsing -/

/-- Every character the hexadecimal rendering produces comes from the digit
table at a value below 16. -/
theorem toHexUpperAux_chars (fuel : Nat) :
    ∀ n, ∀ c ∈ toHexUpperAux fuel n, ∃ d, d < 16 ∧ c = hexDigitChar d := by
  induction fuel with
  | zero => intro n c hc; simp [toHexUpperAux] at hc
  | succ fuel ih =>
    intro n c hc
    unfold toHexUpperAux at hc
    by_cases hn : n < 16
    · rw [if_pos hn] at hc
      simp only [List.mem_singleton] at hc
      exact ⟨n, hn, hc⟩
    · rw [if_neg hn] at hc
      rw [List.mem_append] at hc
      rcases hc with hc | hc
      · exact ih (n / 16) c hc
      · simp only [List.mem_singleton] at hc
        exact ⟨n % 16, Nat.mod_lt n (by omega), hc⟩

/-- The digit table is inverted by `hexCharVal`, and its entries are neither
whitespace nor `x` nor `+`. -/
theorem hexDigitChar_props (d : Nat) (hd : d < 16) :
    hexCharVal (hexDigitChar d) = some d ∧
    (hexDigitChar d).isWhitespace = false ∧
    hexDigitChar d ≠ 'x' ∧ hexDigitChar d ≠ '+' := by
  interval_cases d <;> exact ⟨by decide, by decide, by decide, by decide⟩

/-- Trimming is the identity on whitespace-free character lists. -/
theorem trimChars_eq_self (l : List Char) (hl : ∀ c ∈ l, c.isWhitespace = false) :
    trimChars l = l := by
  unfold trimChars
  have h1 : l.dropWhile Char.isWhitespace = l := by
    cases l with
    | nil => rfl
    | cons a rest =>
      rw [List.dropWhile_cons, hl a (List.mem_cons_self a rest)]
      simp
  rw [h1]
  have h2 : l.reverse.dropWhile Char.isWhitespace = l.reverse := by
    cases hr : l.reverse with
    | nil => rfl
    | cons a rest =>
      have ha : a ∈ l := by
        have hm : a ∈ l.reverse := by rw [hr]; exact List.mem_cons_self a rest
        simpa using hm
      rw [List.dropWhile_cons, hl a ha]
      simp
  rw [h2, List.reverse_reverse]

/-- Stripping `0x` marks is the identity on lists free of the letter `x`. -/
theorem stripHexMarks_eq_self (l : List Char) (hl : ∀ c ∈ l, c ≠ 'x') :
    stripHexMarks l = l := by
  rcases l with _ | ⟨c1, _ | ⟨c2, rest⟩⟩
  · rfl
  · rfl
  · unfold stripHexMarks
    rw [if_neg]
    intro ⟨_, h2⟩
    exact hl c2 (by simp) h2

/-- Parsing a concatenation parses the first part and continues with its
accumulated value. -/
theorem parseHexAcc_append (l1 l2 : List Char) :
    ∀ acc, parseHexAcc acc (l1 ++ l2) =
      match parseHexAcc acc l1 with
      | some a => parseHexAcc a l2
      | none => none := by
  induction l1 with
  | nil => intro acc; rfl
  | cons c rest ih =>
    intro acc
    simp only [List.cons_append, parseHexAcc]
    rcases hc : hexCharVal c with _ | d
    · rfl
    · exact ih (acc * 16 + d)

/-- The hexadecimal rendering is nonempty whenever fuel remains. -/
theorem toHexUpperAux_ne_nil (fuel n : Nat) (hf : fuel ≠ 0) :
    toHexUpperAux fuel n ≠ [] := by
  cases fuel with
  | zero => exact absurd rfl hf
  | succ fuel =>
    unfold toHexUpperAux
    by_cases h : n < 16
    · rw [if_pos h]; simp
    · rw [if_neg h]; simp

/-- Parsing inverts the hexadecimal rendering, relative to any accumulator. -/
theorem toHexUpperAux_parse (fuel : Nat) :
    ∀ n acc, n < 16 ^ fuel →
      parseHexAcc acc (toHexUpperAux fuel n) =
        some (acc * 16 ^ (toHexUpperAux fuel n).length + n) := by
  induction fuel with
  | zero =>
    intro n acc hn
    have hn0 : n = 0 := by simpa using hn
    subst hn0
    simp [toHexUpperAux, parseHexAcc]
  | succ fuel ih =>
    intro n acc hn
    by_cases h16 : n < 16
    · simp only [toHexUpperAux, if_pos h16]
      simp only [parseHexAcc, (hexDigitChar_props n h16).1]
      simp
    · simp only [toHexUpperAux, if_neg h16]
      rw [parseHexAcc_append]
      have hdiv : n / 16 < 16 ^ fuel := by
        rw [Nat.div_lt_iff_lt_mul (by omega)]
        calc n < 16 ^ (fuel + 1) := hn
          _ = 16 ^ fuel * 16 := by ring
      rw [ih (n / 16) acc hdiv]
      simp only [parseHexAcc, (hexDigitChar_props (n % 16) (Nat.mod_lt n (by omega))).1]
      congr 1
      rw [List.length_append, List.length_singleton, pow_succ]
      have hnm : n / 16 * 16 + n % 16 = n := by omega
      calc (acc * 16 ^ (toHexUpperAux fuel (n / 16)).length + n / 16) * 16 + n % 16
          = acc * (16 ^ (toHexUpperAux fuel (n / 16)).length * 16) +
              (n / 16 * 16 + n % 16) := by ring
        _ = acc * (16 ^ (toHexUpperAux fuel (n / 16)).length * 16) + n := by rw [hnm]

/-- For values in the `u32` range, `from_str_radix` inverts the `0x`-free
uppercase hexadecimal rendering. -/
theorem fromStrRadix16_toHexUpper (v : Nat) (hv : v < 4294967296) :
    fromStrRadix16U32 (toHexUpper v) = some v := by
  have hvfuel : v < 16 ^ 16 := lt_of_lt_of_le hv (by norm_num)
  have hparse := toHexUpperAux_parse 16 v 0 hvfuel
  have hchars := toHexUpperAux_chars 16 v
  have hne : toHexUpperAux 16 v ≠ [] := toHexUpperAux_ne_nil 16 v (by omega)
  unfold toHexUpper fromStrRadix16U32
  rcases hl : toHexUpperAux 16 v with _ | ⟨c, rest⟩
  · exact absurd hl hne
  · have hcplus : c ≠ '+' := by
      obtain ⟨d, hd, hcd⟩ := hchars c (by rw [hl]; exact List.mem_cons_self _ _)
      rw [hcd]
      exact (hexDigitChar_props d hd).2.2.2
    rw [hl] at hparse
    simp only [Nat.zero_mul, Nat.zero_add] at hparse
    simp only [stripPlusSign, if_neg hcplus]
    simp [hparse, hv]

/-- Reading the flags node back when it holds the uppercase `0x`-prefixed
rendering of a `u32` value yields exactly that value. -/
theorem fpga_flags_of_hex_contents (dev : FpgaNodes) (v : Nat) (hv : v < 4294967296)
    (hc : dev.flagsContents = '0' :: 'x' :: toHexUpper v) :
    fpga_flags dev = .ok v := by
  have hchars := toHexUpperAux_chars 16 v
  unfold fpga_flags
  rw [hc]
  have htrim : trimChars ('0' :: 'x' :: toHexUpper v) = '0' :: 'x' :: toHexUpper v := by
    apply trimChars_eq_self
    intro c hcm
    rcases (by simpa using hcm : c = '0' ∨ c = 'x' ∨ c ∈ toHexUpper v) with h | h | h
    · rw [h]; decide
    · rw [h]; decide
    · obtain ⟨d, hd, hcd⟩ := hchars c h
      rw [hcd]
      exact (hexDigitChar_props d hd).2.1
  rw [htrim]
  have hstriphead : stripHexMarks ('0' :: 'x' :: toHexUpper v) =
      stripHexMarks (toHexUpper v) := by
    show (if '0' = '0' ∧ 'x' = 'x' then stripHexMarks (toHexUpper v)
      else '0' :: 'x' :: toHexUpper v) = stripHexMarks (toHexUpper v)
    simp
  rw [hstriphead]
  have hstrip : stripHexMarks (toHexUpper v) = toHexUpper v := by
    apply stripHexMarks_eq_self
    intro c h
    obtain ⟨d, hd, hcd⟩ := hchars c h
    rw [hcd]
    exact (hexDigitChar_props d hd).2.2.1
  rw [hstrip, fromStrRadix16_toHexUpper v hv]

/-- C5: against a state-readable backing store, `set_flags v` for a `u32`
value `v` writes the uppercase `0x`-prefixed hexadecimal rendering of `v`;
if the store retains written values the call succeeds and a following
`flags()` returns exactly `v`, while against a store that silently rejects
the value (so that the read-back does not give `v`) the call fails with a
Flag (FlagParse) error rather than succeeding. -/
theorem set_flags_roundtrip (handle : String) (v : Nat) (dev : FpgaNodes) (st : String)
    (hv : v < 4294967296) (hstate : dev.stateRaw = .ok st) :
    (dev.flagsRetains = true →
      set_flags handle v dev = .ok (writeFlagsNode dev ('0' :: 'x' :: toHexUpper v)) ∧
      (writeFlagsNode dev ('0' :: 'x' :: toHexUpper v)).flagsContents =
        '0' :: 'x' :: toHexUpper v ∧
      fpga_flags (writeFlagsNode dev ('0' :: 'x' :: toHexUpper v)) = .ok v) ∧
    (dev.flagsRetains = false → fpga_flags dev ≠ .ok v →
      ∃ msg, set_flags handle v dev = .error (.Flag msg)) := by
  have hstate2 : fpga_state handle (writeFlagsNode dev ('0' :: 'x' :: toHexUpper v)) =
      .ok (trimEndMatchesChar '\n' st) := by
    unfold fpga_state
    rw [show (writeFlagsNode dev ('0' :: 'x' :: toHexUpper v)).stateRaw = dev.stateRaw
      from rfl, hstate]
  constructor
  · intro hret
    have hcontents : (writeFlagsNode dev ('0' :: 'x' :: toHexUpper v)).flagsContents =
        '0' :: 'x' :: toHexUpper v := by
      simp only [writeFlagsNode, hret]
      simp
    have hflags : fpga_flags (writeFlagsNode dev ('0' :: 'x' :: toHexUpper v)) = .ok v :=
      fpga_flags_of_hex_contents _ v hv hcontents
    refine ⟨?_, hcontents, hflags⟩
    unfold set_flags
    simp only [hstate2, hflags]
    simp
  · intro hret hneq
    have hdev2 : writeFlagsNode dev ('0' :: 'x' :: toHexUpper v) = dev := by
      obtain ⟨fc, fr, sr, fw⟩ := dev
      have hret2 : fr = false := hret
      subst hret2
      rfl
    unfold set_flags
    rw [hdev2] at hstate2 ⊢
    simp only [hstate2]
    rcases hf : fpga_flags dev with e | ret
    · exact ⟨setFlagsReadbackMsg handle v e.message, by simp only [hf]⟩
    · have hne : ret ≠ v := by
        intro h
        exact hneq (h ▸ hf)
      exact ⟨setFlagsMismatchMsg handle v ret, by simp only [hf]; rw [if_neg hne]⟩

/-- Witness for C5: writing flags 32 to a retaining store with contents `0`
succeeds and reads back as 32 (contents `0x20`); writing 32 to a
silently-rejecting store holding `7` fails with a Flag error. -/
theorem set_flags_roundtrip_witness :
    (32 < 4294967296 ∧
      (⟨['0'], true, .ok "operating", .ok ()⟩ : FpgaNodes).stateRaw = .ok "operating" ∧
      (⟨['0'], true, .ok "operating", .ok ()⟩ : FpgaNodes).flagsRetains = true ∧
      (⟨['7'], false, .ok "operating", .ok ()⟩ : FpgaNodes).flagsRetains = false ∧
      fpga_flags ⟨['7'], false, .ok "operating", .ok ()⟩ ≠ .ok 32) ∧
    (set_flags "fpga0" 32 ⟨['0'], true, .ok "operating", .ok ()⟩ =
        .ok (writeFlagsNode ⟨['0'], true, .ok "operating", .ok ()⟩
          ('0' :: 'x' :: toHexUpper 32)) ∧
      (writeFlagsNode ⟨['0'], true, .ok "operating", .ok ()⟩
          ('0' :: 'x' :: toHexUpper 32)).flagsContents = '0' :: 'x' :: toHexUpper 32 ∧
      fpga_flags (writeFlagsNode ⟨['0'], true, .ok "operating", .ok ()⟩
          ('0' :: 'x' :: toHexUpper 32)) = .ok 32) ∧
    (∃ msg, set_flags "fpga0" 32 ⟨['7'], false, .ok "operating", .ok ()⟩ =
        .error (.Flag msg)) :=
  ⟨⟨by decide, rfl, rfl, rfl, by
      intro h
      have h2 : (Except.ok 7 : Except FpgadError Nat) = .ok 32 := h
      injection h2 with h3
      exact absurd h3 (by decide)⟩,
    (set_flags_roundtrip "fpga0" 32 ⟨['0'], true, .ok "operating", .ok ()⟩ "operating"
      (by decide) rfl).1 rfl,
    (set_flags_roundtrip "fpga0" 32 ⟨['7'], false, .ok "operating", .ok ()⟩ "operating"
      (by decide) rfl).2 rfl (by
      intro h
      have h2 : (Except.ok 7 : Except FpgadError Nat) = .ok 32 := h
      injection h2 with h3
      exact absurd h3 (by decide))⟩

/-! ## Overlay lifecycle engine
(`daemon/src/platforms/universal_components/universal_overlay_handler.rs`)

The configfs directory of one overlay handle is modelled by `OverlayFs`:
whether the directory exists and the contents of its `path` and `status`
virtual files (`none` meaning the file is absent).  Kernel behaviour during
`apply_overlay` (directory creation, auto-population, reaction to the path
write) is supplied by a `ConfigfsEnv` record. -/

def overlayControlDir : String := "/sys/kernel/config/device-tree/overlays"

def overlayFsPath (overlay_handle : String) : String :=
  overlayControlDir ++ "/" ++ overlay_handle

structure OverlayFs where
  dirExists : Bool
  pathNode : Option String
  statusNode : Option String
deriving DecidableEq, Repr

/-- The io error string for reading an absent virtual file. -/
def ioErrMsgMissing : String := "No such file or directory (os error 2)"

/-- From `get_vfs_path`: read the `path` file, trailing newlines trimmed. -/
def get_vfs_path (fsPath : String) (fs : OverlayFs) : Except FpgadError String :=
  match fs.pathNode with
  | none => .error (.IORead (fsPath ++ "/path") ioErrMsgMissing)
  | some p => .ok (trimEndMatchesChar '\n' p)

/-- From `get_vfs_status`: read the `status` file, trailing newlines
trimmed. -/
def get_vfs_status (fsPath : String) (fs : OverlayFs) : Except FpgadError String :=
  match fs.statusNode with
  | none => .error (.IORead (fsPath ++ "/status") ioErrMsgMissing)
  | some s => .ok (trimEndMatchesChar '\n' s)

/-- From `OverlayHandler::status` for the universal handler: the literal
`not present` when the directory is absent, otherwise the Debug-quoted
`path` contents, a space, and the `status` contents. -/
def overlay_status (fsPath : String) (fs : OverlayFs) : Except FpgadError String :=
  if !fs.dirExists then .ok "not present"
  else
    match get_vfs_path fsPath fs with
    | .error e => .error e
    | .ok p =>
        match get_vfs_status fsPath fs with
        | .error e => .error e
        | .ok st => .ok (debugQuote p ++ " " ++ st)

/-- Path components of a rendered path string, empty components dropped
(models Rust `Path::components` on the strings configfs returns). -/
def pathComps (s : String) : List String :=
  ((splitCharsAux '/' s.data []).map String.mk).filter (fun c => !c.isEmpty)

/-- Rust `Path::ends_with`: component-wise suffix test. -/
def pathEndsWith (p sfx : String) : Bool :=
  (pathComps sfx).isSuffixOf (pathComps p)

/-- Boolean infix test on character lists (structural recursion on the
haystack). -/
def listIsInfixOf : List Char → List Char → Bool
  | needle, [] => needle.isEmpty
  | needle, c :: rest => needle.isPrefixOf (c :: rest) || listIsInfixOf needle rest

/-- Rust `str::contains` as used on the overlay status text. -/
def strContainsSub (hay needle : String) : Bool :=
  listIsInfixOf needle.data hay.data

/-- From `vfs_check_applied`: the read-back `path` must end with the written
source path and the combined status text must contain `applied`. -/
def vfs_check_applied (fsPath : String) (srcRel : String) (fs : OverlayFs) :
    Except FpgadError Unit :=
  match get_vfs_path fsPath fs with
  | .error e => .error e
  | .ok p =>
      if pathEndsWith p srcRel then
        match overlay_status fsPath fs with
        | .error e => .error e
        | .ok st =>
            if strContainsSub st "applied" then .ok ()
            else .error (.OverlayStatus
              ("After writing to configfs, overlay status does not show \x27applied\x27. Instead it is \x27" ++
                st ++ "\x27"))
      else .error (.OverlayStatus
        ("When trying to apply overlay \x27" ++ debugQuote srcRel ++
          "\x27, the resulting vfs path contained \x27" ++ debugQuote p ++ "\x27"))

/-- Kernel behaviour during one `apply_overlay` call. -/
structure ConfigfsEnv where
  createOutcome : Except String Unit
  kernelPathContents : Option String
  kernelStatusContents : Option String
  pathWrite : Except String Unit
  pathAfterWrite : String
  statusAfterWrite : String

def alreadyExistsMsg (fsPath : String) : String :=
  "Overlay with this handle already exists at " ++ debugQuote fsPath ++
    ". Remove the overlay and try again."

def noPathFileMsg (fsPath : String) : String :=
  "Overlay at " ++ debugQuote fsPath ++
    " did not initialise a new overlay: the `path` virtual file did not get created by the kernel. Is the parent dir mounted as a configfs directory?"

/-- From `OverlayHandler::apply_overlay` for the universal handler: refuse if
the directory already exists; otherwise create it (the kernel may
auto-populate `path`/`status`), require the `path` file to have appeared,
write the source path into it and verify application.  The second component
is the configfs state after the call. -/
def apply_overlay (fsPath : String) (srcRel : String) (fs : OverlayFs)
    (env : ConfigfsEnv) : Except FpgadError Unit × OverlayFs :=
  if fs.dirExists then
    (.error (.Argument (alreadyExistsMsg fsPath)), fs)
  else
    match env.createOutcome with
    | .error e => (.error (.IOCreate fsPath e), fs)
    | .ok _ =>
        if (env.kernelPathContents : Option String).isNone then
          (.error (.Internal (noPathFileMsg fsPath)),
            ⟨true, env.kernelPathContents, env.kernelStatusContents⟩)
        else
          match env.pathWrite with
          | .error e => (.error (.IOWrite (fsPath ++ "/path") e),
              ⟨true, env.kernelPathContents, env.kernelStatusContents⟩)
          | .ok _ =>
              (vfs_check_applied fsPath srcRel
                  ⟨true, some env.pathAfterWrite, some env.statusAfterWrite⟩,
                ⟨true, some env.pathAfterWrite, some env.statusAfterWrite⟩)

/-- C7: applying an overlay whose configfs directory already exists fails
with the Argument error and performs no filesystem mutation: the resulting
state is exactly the pre-existing one (in particular an Applied status
containing `applied` is untouched). -/
theorem apply_overlay_existing_unchanged (fsPath srcRel : String) (fs : OverlayFs)
    (env : ConfigfsEnv) (hex : fs.dirExists = true) :
    apply_overlay fsPath srcRel fs env =
      (.error (.Argument (alreadyExistsMsg fsPath)), fs) := by
  unfold apply_overlay
  rw [if_pos hex]

/-- Witness for C7: an overlay directory holding an applied overlay is left
untouched by a second apply. -/
theorem apply_overlay_existing_unchanged_witness :
    (⟨true, some "/fpga-full", some "applied"⟩ : OverlayFs).dirExists = true ∧
    apply_overlay (overlayFsPath "my_overlay") "design.dtbo"
        ⟨true, some "/fpga-full", some "applied"⟩
        ⟨.ok (), none, none, .ok (), "", ""⟩ =
      (.error (.Argument (alreadyExistsMsg (overlayFsPath "my_overlay"))),
        ⟨true, some "/fpga-full", some "applied"⟩) :=
  ⟨rfl, apply_overlay_existing_unchanged (overlayFsPath "my_overlay") "design.dtbo"
    ⟨true, some "/fpga-full", some "applied"⟩ ⟨.ok (), none, none, .ok (), "", ""⟩ rfl⟩

/-- C8: `status` on an absent overlay directory (in particular a
never-instantiated handle) succeeds with the literal `not present`; on an
existing directory it returns the formatted combination of the `path` and
`status` node contents. -/
theorem overlay_status_spec (fsPath : String) (fs : OverlayFs) :
    (fs.dirExists = false → overlay_status fsPath fs = .ok "not present") ∧
    (∀ p st, fs.dirExists = true → fs.pathNode = some p → fs.statusNode = some st →
      overlay_status fsPath fs =
        .ok (debugQuote (trimEndMatchesChar '\n' p) ++ " " ++
          trimEndMatchesChar '\n' st)) := by
  constructor
  · intro habs
    unfold overlay_status
    rw [habs]
    rfl
  · intro p st hdir hp hst
    unfold overlay_status get_vfs_path get_vfs_status
    rw [hdir]
    simp only [hp, hst]
    rfl

/-- Witness for C8: a never-instantiated handle reports `not present`, and an
applied overlay reports its quoted path followed by its status. -/
theorem overlay_status_spec_witness :
    ((⟨false, none, none⟩ : OverlayFs).dirExists = false ∧
      overlay_status (overlayFsPath "ghost") ⟨false, none, none⟩ = .ok "not present") ∧
    ((⟨true, some "/fpga-full\n", some "applied\n"⟩ : OverlayFs).dirExists = true ∧
      overlay_status (overlayFsPath "my_overlay")
          ⟨true, some "/fpga-full\n", some "applied\n"⟩ =
        .ok (debugQuote (trimEndMatchesChar '\n' "/fpga-full\n") ++ " " ++
          trimEndMatchesChar '\n' "applied\n")) :=
  ⟨⟨rfl, (overlay_status_spec (overlayFsPath "ghost") ⟨false, none, none⟩).1 rfl⟩,
    ⟨rfl, (overlay_status_spec (overlayFsPath "my_overlay")
        ⟨true, some "/fpga-full\n", some "applied\n"⟩).2
      "/fpga-full\n" "applied\n" rfl rfl rfl⟩⟩

/-! ## Per-instance caching of device and overlay objects
(`daemon/src/platforms/universal.rs`)

`UniversalPlatform` holds `OnceLock`-cached `UniversalFPGA` and
`UniversalOverlayHandler` objects, modelled as `Option` fields; `get_or_init`
ignores its argument when the cell is already populated.  The runtime
existence of the overlay control directory is passed in as
`parentDirExists`. -/

structure UniversalFPGA where
  device_handle : String
deriving DecidableEq, Repr

structure UniversalOverlayHandler where
  overlay_fs_path : String
deriving DecidableEq, Repr

structure UniversalPlatform where
  fpga : Option UniversalFPGA
  overlay_handler : Option UniversalOverlayHandler
deriving DecidableEq, Repr

/-- From `UniversalPlatform::fpga`:
`Ok(self.fpga.get_or_init(|| UniversalFPGA::new(device_handle)))`. -/
def UniversalPlatform.fpgaGet (p : UniversalPlatform) (device_handle : String) :
    Except FpgadError UniversalFPGA × UniversalPlatform :=
  match p.fpga with
  | some f => (.ok f, p)
  | none => (.ok ⟨device_handle⟩, { p with fpga := some ⟨device_handle⟩ })

/-- From `UniversalPlatform::overlay_handler`: `get_or_init` with a new
handler for the given handle, then validate that the overlay control
directory (the parent of the handler's path, which always exists as a path
value) exists on the system. -/
def UniversalPlatform.overlayHandlerGet (p : UniversalPlatform) (overlay_handle : String)
    (parentDirExists : Bool) :
    Except FpgadError UniversalOverlayHandler × UniversalPlatform :=
  match p.overlay_handler with
  | some h =>
      if parentDirExists then (.ok h, p)
      else (.error (.Argument ("The overlayfs path " ++ debugQuote overlayControlDir ++
        " doesn\x27t seem to exist.")), p)
  | none =>
      if parentDirExists then
        (.ok ⟨overlayFsPath overlay_handle⟩,
          { p with overlay_handler := some ⟨overlayFsPath overlay_handle⟩ })
      else
        (.error (.Argument ("The overlayfs path " ++ debugQuote overlayControlDir ++
          " doesn\x27t seem to exist.")),
          { p with overlay_handler := some ⟨overlayFsPath overlay_handle⟩ })

/-- C10: on one platform instance the cached objects are bound to the handle
of the first call only: after `fpga(h1)`, a later `fpga(h2)` with `h2 ≠ h1`
returns the very same object bound to `h1`, and likewise for
`overlay_handler`. -/
theorem platform_caches_first_handle (h1 h2 : String) (hne : h1 ≠ h2)
    (p : UniversalPlatform) (hf : p.fpga = none) (ho : p.overlay_handler = none) :
    ((p.fpgaGet h1).1 = .ok ⟨h1⟩ ∧
      (((p.fpgaGet h1).2).fpgaGet h2).1 = .ok ⟨h1⟩ ∧
      (((p.fpgaGet h1).2).fpgaGet h2).2 = (p.fpgaGet h1).2) ∧
    ((p.overlayHandlerGet h1 true).1 = .ok ⟨overlayFsPath h1⟩ ∧
      (((p.overlayHandlerGet h1 true).2).overlayHandlerGet h2 true).1 =
        .ok ⟨overlayFsPath h1⟩ ∧
      (((p.overlayHandlerGet h1 true).2).overlayHandlerGet h2 true).2 =
        (p.overlayHandlerGet h1 true).2) := by
  constructor
  · simp [UniversalPlatform.fpgaGet, hf]
  · simp only [UniversalPlatform.overlayHandlerGet, ho]
    simp

/-- Witness for C10 at two distinct handles on a fresh platform instance. -/
theorem platform_caches_first_handle_witness :
    ("fpga0" ≠ "fpga1" ∧ (⟨none, none⟩ : UniversalPlatform).fpga = none ∧
      (⟨none, none⟩ : UniversalPlatform).overlay_handler = none) ∧
    ((((⟨none, none⟩ : UniversalPlatform).fpgaGet "fpga0").1 = .ok ⟨"fpga0"⟩ ∧
      ((((⟨none, none⟩ : UniversalPlatform).fpgaGet "fpga0").2).fpgaGet "fpga1").1 =
        .ok ⟨"fpga0"⟩ ∧
      ((((⟨none, none⟩ : UniversalPlatform).fpgaGet "fpga0").2).fpgaGet "fpga1").2 =
        ((⟨none, none⟩ : UniversalPlatform).fpgaGet "fpga0").2) ∧
    (((⟨none, none⟩ : UniversalPlatform).overlayHandlerGet "fpga0" true).1 =
        .ok ⟨overlayFsPath "fpga0"⟩ ∧
      ((((⟨none, none⟩ : UniversalPlatform).overlayHandlerGet "fpga0" true).2).overlayHandlerGet
          "fpga1" true).1 = .ok ⟨overlayFsPath "fpga0"⟩ ∧
      ((((⟨none, none⟩ : UniversalPlatform).overlayHandlerGet "fpga0" true).2).overlayHandlerGet
          "fpga1" true).2 =
        ((⟨none, none⟩ : UniversalPlatform).overlayHandlerGet "fpga0" true).2)) :=
  ⟨⟨by decide, rfl, rfl⟩,
    platform_caches_first_handle "fpga0" "fpga1" (by decide) ⟨none, none⟩ rfl rfl⟩

/-! ## Write coordination lock
(`daemon/src/comm/dbus/control_interface.rs`)

`write_bitstream_direct` (and `apply_overlay`) hold the process-wide
`WRITE_LOCK` across the sequence (write the firmware search path register;
trigger the load).  Two concurrent such operations X and Y are modelled as a
transition system: each task acquires the lock, writes its own prefix to the
shared register, performs the load (observing the register, as the kernel
does when resolving the relative path), and releases the lock.  Px and Py
are the prefixes the two operations write. -/

inductive TaskId where
  | X
  | Y
deriving DecidableEq, Repr

inductive TaskPc where
  | idle
  | holding
  | written
  | loaded
  | finished
deriving DecidableEq, Repr

structure LoadTask where
  pc : TaskPc
  observed : Option String
deriving DecidableEq, Repr

structure LockSys where
  lockHolder : Option TaskId
  fwSearchPath : Option String
  taskX : LoadTask
  taskY : LoadTask
deriving DecidableEq, Repr

/-- One interleaving step of the two lock-guarded load operations.  A task
acquires the free lock, then (program order, no further guard in the code)
writes its prefix to the shared register, loads observing the register, and
releases the lock on return. -/
inductive LockStep (Px Py : String) : LockSys → LockSys → Prop where
  | acquireX (s : LockSys) (hfree : s.lockHolder = none) (hpc : s.taskX.pc = .idle) :
      LockStep Px Py s
        { s with lockHolder := some .X, taskX := { s.taskX with pc := .holding } }
  | writeX (s : LockSys) (hpc : s.taskX.pc = .holding) :
      LockStep Px Py s
        { s with fwSearchPath := some Px, taskX := { s.taskX with pc := .written } }
  | loadX (s : LockSys) (hpc : s.taskX.pc = .written) :
      LockStep Px Py s
        { s with taskX := { pc := .loaded, observed := s.fwSearchPath } }
  | releaseX (s : LockSys) (hpc : s.taskX.pc = .loaded) :
      LockStep Px Py s
        { s with lockHolder := none, taskX := { s.taskX with pc := .finished } }
  | acquireY (s : LockSys) (hfree : s.lockHolder = none) (hpc : s.taskY.pc = .idle) :
      LockStep Px Py s
        { s with lockHolder := some .Y, taskY := { s.taskY with pc := .holding } }
  | writeY (s : LockSys) (hpc : s.taskY.pc = .holding) :
      LockStep Px Py s
        { s with fwSearchPath := some Py, taskY := { s.taskY with pc := .written } }
  | loadY (s : LockSys) (hpc : s.taskY.pc = .written) :
      LockStep Px Py s
        { s with taskY := { pc := .loaded, observed := s.fwSearchPath } }
  | releaseY (s : LockSys) (hpc : s.taskY.pc = .loaded) :
      LockStep Px Py s
        { s with lockHolder := none, taskY := { s.taskY with pc := .finished } }

/-- Initial system state: lock free, both tasks idle, the register holding an
arbitrary previous value. -/
def initSys (reg0 : Option String) : LockSys :=
  ⟨none, reg0, ⟨.idle, none⟩, ⟨.idle, none⟩⟩

/-- A task is inside the lock-guarded critical sequence. -/
def inCrit (pc : TaskPc) : Prop :=
  pc = .holding ∨ pc = .written ∨ pc = .loaded

/-- Inductive invariant: a task inside the critical sequence holds the lock;
a task that has written and not yet loaded sees its own prefix in the
register; a task that has loaded observed its own prefix. -/
def LockInv (Px Py : String) (s : LockSys) : Prop :=
  (inCrit s.taskX.pc → s.lockHolder = some .X) ∧
  (inCrit s.taskY.pc → s.lockHolder = some .Y) ∧
  (s.taskX.pc = .written → s.fwSearchPath = some Px) ∧
  (s.taskY.pc = .written → s.fwSearchPath = some Py) ∧
  ((s.taskX.pc = .loaded ∨ s.taskX.pc = .finished) → s.taskX.observed = some Px) ∧
  ((s.taskY.pc = .loaded ∨ s.taskY.pc = .finished) → s.taskY.observed = some Py)

/-- The invariant is preserved by every interleaving step. -/
theorem lockInv_step (Px Py : String) (s s2 : LockSys)
    (hstep : LockStep Px Py s s2) (hinv : LockInv Px Py s) : LockInv Px Py s2 := by
  obtain ⟨hx, hy, hwx, hwy, hox, hoy⟩ := hinv
  cases hstep <;> simp_all [LockInv, inCrit]

/-- The invariant holds in every reachable state. -/
theorem lockInv_reachable (Px Py : String) (reg0 : Option String) (s : LockSys)
    (h : Relation.ReflTransGen (LockStep Px Py) (initSys reg0) s) :
    LockInv Px Py s := by
  induction h with
  | refl => simp [LockInv, initSys, inCrit]
  | tail hsteps hstep ih => exact lockInv_step _ _ _ _ hstep ih

/-- C3: under the write-coordination lock the two write-then-load sequences
never interleave: in every reachable state, a task that has performed its
load (or finished) observed exactly the prefix it wrote itself — X observes
Px and Y observes Py, for every interleaving of the two calls. -/
theorem lock_serializes_loads (Px Py : String) (reg0 : Option String) (s : LockSys)
    (h : Relation.ReflTransGen (LockStep Px Py) (initSys reg0) s) :
    ((s.taskX.pc = .loaded ∨ s.taskX.pc = .finished) → s.taskX.observed = some Px) ∧
    ((s.taskY.pc = .loaded ∨ s.taskY.pc = .finished) → s.taskY.observed = some Py) := by
  have hinv := lockInv_reachable Px Py reg0 s h
  exact ⟨hinv.2.2.2.2.1, hinv.2.2.2.2.2⟩

/-- Witness for C3: a complete concrete run (X runs its guarded sequence,
then Y) reaches a final state in which X observed its own prefix `a` and Y
its own prefix `b`. -/
theorem lock_serializes_loads_witness :
    ((⟨none, some "b", ⟨.finished, some "a"⟩, ⟨.finished, some "b"⟩⟩ : LockSys).taskX.pc =
        .finished) ∧
    (⟨none, some "b", ⟨.finished, some "a"⟩, ⟨.finished, some "b"⟩⟩ : LockSys).taskX.observed =
      some "a" ∧
    (⟨none, some "b", ⟨.finished, some "a"⟩, ⟨.finished, some "b"⟩⟩ : LockSys).taskY.observed =
      some "b" := by
  have h1 : Relation.ReflTransGen (LockStep "a" "b") (initSys none)
      ⟨some .X, none, ⟨.holding, none⟩, ⟨.idle, none⟩⟩ :=
    .tail .refl (.acquireX _ rfl rfl)
  have h2 : Relation.ReflTransGen (LockStep "a" "b") (initSys none)
      ⟨some .X, some "a", ⟨.written, none⟩, ⟨.idle, none⟩⟩ :=
    .tail h1 (.writeX _ rfl)
  have h3 : Relation.ReflTransGen (LockStep "a" "b") (initSys none)
      ⟨some .X, some "a", ⟨.loaded, some "a"⟩, ⟨.idle, none⟩⟩ :=
    .tail h2 (.loadX _ rfl)
  have h4 : Relation.ReflTransGen (LockStep "a" "b") (initSys none)
      ⟨none, some "a", ⟨.finished, some "a"⟩, ⟨.idle, none⟩⟩ :=
    .tail h3 (.releaseX _ rfl)
  have h5 : Relation.ReflTransGen (LockStep "a" "b") (initSys none)
      ⟨some .Y, some "a", ⟨.finished, some "a"⟩, ⟨.holding, none⟩⟩ :=
    .tail h4 (.acquireY _ rfl rfl)
  have h6 : Relation.ReflTransGen (LockStep "a" "b") (initSys none)
      ⟨some .Y, some "b", ⟨.finished, some "a"⟩, ⟨.written, none⟩⟩ :=
    .tail h5 (.writeY _ rfl)
  have h7 : Relation.ReflTransGen (LockStep "a" "b") (initSys none)
      ⟨some .Y, some "b", ⟨.finished, some "a"⟩, ⟨.loaded, some "b"⟩⟩ :=
    .tail h6 (.loadY _ rfl)
  have h8 : Relation.ReflTransGen (LockStep "a" "b") (initSys none)
      ⟨none, some "b", ⟨.finished, some "a"⟩, ⟨.finished, some "b"⟩⟩ :=
    .tail h7 (.releaseY _ rfl)
  have hfinal := lock_serializes_loads "a" "b" none
    ⟨none, some "b", ⟨.finished, some "a"⟩, ⟨.finished, some "b"⟩⟩ h8
  exact ⟨rfl, hfinal.1 (Or.inr rfl), hfinal.2 (Or.inr rfl)⟩

end Fpgad
